import Mathlib

/-!
Shallow embedding of src/verification_examples.rs (a worksheet of Prusti
exercise stubs) and verification of its specification claims.

Modelling conventions:
* Rust slices and vectors of i32 become List Int; usize becomes Nat.
* i32 arithmetic wraps: negation is embedded with an explicit reduction
  modulo 2^32 into the interval [-2^31, 2^31), matching two's-complement
  wrap-around where overflow matters.  u32 addition likewise wraps
  modulo 2^32 on Nat.
* Generic functions (sort, sorted, binary_search over T with PartialEq
  and PartialOrd) are instantiated at Int.
* A function whose Rust body can fail at runtime (out-of-bounds unwrap)
  returns Option.
* Unimplemented stub bodies are embedded exactly as written in the
  source: find returns 0, sort does nothing, sorted returns true,
  binary_search returns None.
-/

namespace VerificationExamples

/-- The least i32 value, -2^31. -/
def i32Min : Int := -(2 ^ 31)

/-- The greatest i32 value, 2^31 - 1. -/
def i32Max : Int := 2 ^ 31 - 1

/-- Two's-complement wrap-around of an integer into the i32 range
[-2^31, 2^31): reduction modulo 2^32 re-centred on zero. -/
def wrap32 (x : Int) : Int := (x + 2 ^ 31) % 2 ^ 32 - 2 ^ 31

/-- Embeds fn abs(x: i32) -> i32 (src lines 10-12):
if x < 0 then -x else x, where i32 negation wraps on overflow. -/
def abs (x : Int) : Int := if x < 0 then wrap32 (-x) else x

/-- One iteration of the scanning loop of maximum (src lines 25-31):
replace the running candidate when a larger element is seen. -/
def maxStep (mx c : Int) : Int := if mx < c then c else mx

/-- Embeds fn maximum(values: Vec i32) -> i32 (src lines 22-33).
The body first unwraps values.get(0), which fails out of bounds on the
empty vector, hence the Option result; then it folds the comparison
loop over every index 0..n starting from values[0]. -/
def maximum : List Int → Option Int
  | [] => none
  | v :: rest => some (List.foldl maxStep v (v :: rest))

/-- Embeds fn fib(n: u32) -> u32 (src lines 43-47), with u32 addition
wrapping modulo 2^32. -/
def fib : Nat → Nat
  | 0 => 0
  | 1 => 1
  | n + 2 => (fib (n + 1) + fib n) % 2 ^ 32

/-- Embeds fn find(a: Vec i32, key: i32) -> usize (src lines 50-53).
The stub body is literally 0 as usize. -/
def find (a : List Int) (key : Int) : Nat := 0

/-- Embeds fn sort(a: &[T]) (src lines 67-73), instantiated at Int.
The body is empty and the argument is a shared immutable slice, so the
sequence after the call is the sequence before the call. -/
def sort (a : List Int) : List Int := a

/-- Embeds the predicate fn sorted(a: &[T]) -> bool (src lines 75-83),
instantiated at Int.  The stub body is literally true. -/
def sorted (a : List Int) : Bool := true

/-- Spec-side definition, from the spec's words (section 4.8): a
sequence is sorted iff for every adjacent pair the earlier element is
less than or equal to the later one.  Named sortedSpec to distinguish
it from the code's sorted stub, against which it is compared. -/
def sortedSpec : List Int → Bool
  | [] => true
  | [_] => true
  | x :: y :: rest => decide (x ≤ y) && sortedSpec (y :: rest)

/-- Embeds fn binary_search(a: Vec T, val: T) -> Option usize
(src lines 88-94), instantiated at Int.  The stub body is literally
None. -/
def binary_search (a : List Int) (val : Int) : Option Nat := none

/-- Claim C1: binary_search is required (by its own ensures annotation
and the spec) to return None only when the value is absent; the stub
body returns None on the sorted list [1,1,3,4,5] even though 4 occurs
in it at index 3, so the code violates its own contract at this
input. -/
theorem binary_search_stub_violates_contract :
    sorted ([1, 1, 3, 4, 5] : List Int) = true ∧
    sortedSpec ([1, 1, 3, 4, 5] : List Int) = true ∧
    (4 : Int) ∈ ([1, 1, 3, 4, 5] : List Int) ∧
    ([1, 1, 3, 4, 5] : List Int)[3]? = some 4 ∧
    binary_search ([1, 1, 3, 4, 5] : List Int) 4 = none := by
  decide

/-- Claim C2: the intended contract of find says a returned in-bounds
index must hold the key; the stub body returns 0 on a = [1,2] with
key 5, an in-bounds index whose element is 1, not 5, so the code
violates the contract at this input. -/
theorem find_stub_violates_contract :
    find ([1, 2] : List Int) 5 = 0 ∧
    find ([1, 2] : List Int) 5 < ([1, 2] : List Int).length ∧
    ([1, 2] : List Int)[find ([1, 2] : List Int) 5]? = some 1 ∧
    (1 : Int) ≠ 5 := by
  decide

/-- Claim C3 (counterexample): the find stub does not satisfy its own
annotated postcondition.  At a = [42], key = 42 the result 0 satisfies
the antecedent 0 ≤ result, but the required consequent
result > a.len() fails, since 0 is not greater than 1. -/
theorem find_annotation_cex :
    0 ≤ find ([42] : List Int) 42 ∧
    ¬ (find ([42] : List Int) 42 > ([42] : List Int).length) := by
  decide

/-- Claim C3 (amended): the find stub violates its annotated
postcondition on every input: the result is always 0, so the
antecedent 0 ≤ result always holds while the consequent
result > a.len() never does, the comparison being inverted relative to
a satisfiable found-index contract. -/
theorem find_annotation_violated (a : List Int) (key : Int) :
    find a key = 0 ∧ 0 ≤ find a key ∧ ¬ (find a key > a.length) := by
  refine ⟨rfl, Nat.zero_le _, ?_⟩
  simp [find]

/-- Claim C4: the sorted predicate stub returns true on [2,1] although
its adjacent pair decreases (¬ 2 ≤ 1), contradicting the documented
iff-adjacent-pairs definition (embedded as sortedSpec, which is false
there). -/
theorem sorted_stub_violates_spec :
    sorted ([2, 1] : List Int) = true ∧
    ([2, 1] : List Int)[0]? = some 2 ∧
    ([2, 1] : List Int)[1]? = some 1 ∧
    ¬ ((2 : Int) ≤ 1) ∧
    sortedSpec ([2, 1] : List Int) = false := by
  decide

/-- Claim C5: sort is required to leave the sequence non-decreasing;
the stub body does nothing, so on [2,1] the result is still [2,1],
whose adjacent pair decreases, and the intended sorted predicate
fails on it. -/
theorem sort_stub_violates_contract :
    sort ([2, 1] : List Int) = [2, 1] ∧
    sortedSpec (sort ([2, 1] : List Int)) = false := by
  decide

/-- Claim C10: sort never modifies its argument: it takes a shared
immutable slice and has an empty body, so the length and every element
at every in-bounds index are identical before and after the call. -/
theorem sort_frame (a : List Int) (i : Nat) (h : i < a.length) :
    (sort a).length = a.length ∧ (sort a)[i]? = a[i]? :=
  ⟨rfl, rfl⟩

/-- Claim C10 witness: the frame property instantiated at a = [2,1],
i = 0. -/
theorem sort_frame_witness :
    0 < ([2, 1] : List Int).length ∧
    ((sort ([2, 1] : List Int)).length = ([2, 1] : List Int).length ∧
      (sort ([2, 1] : List Int))[0]? = ([2, 1] : List Int)[0]?) :=
  ⟨by decide, sort_frame ([2, 1] : List Int) 0 (by decide)⟩

/-- The initial candidate is a lower bound of the fold of the scanning
loop of maximum. -/
theorem le_foldl_maxStep (l : List Int) :
    ∀ init : Int, init ≤ List.foldl maxStep init l := by
  induction l with
  | nil => intro init; exact le_refl _
  | cons c l ih =>
    intro init
    have h1 : init ≤ maxStep init c := by
      unfold maxStep; split <;> omega
    exact le_trans h1 (ih (maxStep init c))

/-- Every element of the list is a lower bound of the fold of the
scanning loop of maximum. -/
theorem mem_le_foldl_maxStep (l : List Int) :
    ∀ (init x : Int), x ∈ l → x ≤ List.foldl maxStep init l := by
  induction l with
  | nil => intro init x hx; cases hx
  | cons c l ih =>
    intro init x hx
    rcases List.mem_cons.mp hx with rfl | hx
    · have h1 : x ≤ maxStep init x := by
        unfold maxStep; split <;> omega
      exact le_trans h1 (le_foldl_maxStep l (maxStep init x))
    · exact ih (maxStep init c) x hx

/-- The fold of the scanning loop of maximum is the initial candidate
or an element of the list. -/
theorem foldl_maxStep_mem (l : List Int) :
    ∀ init : Int,
      List.foldl maxStep init l = init ∨ List.foldl maxStep init l ∈ l := by
  induction l with
  | nil => intro init; left; rfl
  | cons c l ih =>
    intro init
    rw [List.foldl_cons]
    rcases ih (maxStep init c) with h | h
    · rw [h]
      unfold maxStep; split
      · right; exact List.mem_cons_self _ _
      · left; rfl
    · right; exact List.mem_cons_of_mem c h

/-- Claim C6: on every non-empty sequence, maximum returns a value
that is greater than or equal to every element and that equals at
least one element. -/
theorem maximum_spec (s : List Int) (h : s ≠ []) :
    ∃ m, maximum s = some m ∧ (∀ x ∈ s, x ≤ m) ∧ m ∈ s := by
  match s with
  | [] => exact absurd rfl h
  | v :: rest =>
    refine ⟨List.foldl maxStep v (v :: rest), rfl, ?_, ?_⟩
    · intro x hx
      exact mem_le_foldl_maxStep (v :: rest) v x hx
    · rcases foldl_maxStep_mem (v :: rest) v with h1 | h1
      · rw [h1]; exact List.mem_cons_self _ _
      · exact h1

/-- Claim C6 witness: the maximum contract instantiated on the spec's
example sequence [3,1,4,1,5]. -/
theorem maximum_spec_witness :
    ([3, 1, 4, 1, 5] : List Int) ≠ [] ∧
    ∃ m, maximum ([3, 1, 4, 1, 5] : List Int) = some m ∧
      (∀ x ∈ ([3, 1, 4, 1, 5] : List Int), x ≤ m) ∧
      m ∈ ([3, 1, 4, 1, 5] : List Int) :=
  ⟨by decide, maximum_spec ([3, 1, 4, 1, 5] : List Int) (by decide)⟩

/-- Claim C7: maximum applied to the empty sequence returns no value
(the out-of-bounds unwrap of values.get(0) fails), and this is the
only failure: on every non-empty sequence maximum does return a
value. -/
theorem maximum_empty_fails :
    maximum ([] : List Int) = none ∧
    ∀ s : List Int, s ≠ [] → ∃ m, maximum s = some m := by
  refine ⟨rfl, ?_⟩
  intro s h
  match s with
  | [] => exact absurd rfl h
  | v :: rest => exact ⟨List.foldl maxStep v (v :: rest), rfl⟩

/-- Claim C7 witness: the empty sequence yields no value, and the
non-empty branch instantiated at [3] yields one. -/
theorem maximum_empty_fails_witness :
    maximum ([] : List Int) = none ∧
    ([3] : List Int) ≠ [] ∧
    ∃ m, maximum ([3] : List Int) = some m :=
  ⟨maximum_empty_fails.1, by decide,
    maximum_empty_fails.2 ([3] : List Int) (by decide)⟩

/-- Claim C8 (counterexample): at the i32 input -2^31 the negation in
abs wraps, so abs returns -2^31 itself, a negative value; the claimed
postcondition result ≥ 0 fails over the full i32 input type. -/
theorem abs_claim_cex :
    i32Min ≤ -(2 ^ 31 : Int) ∧ -(2 ^ 31 : Int) ≤ i32Max ∧
    abs (-(2 ^ 31)) = -(2 ^ 31) ∧ ¬ (0 ≤ abs (-(2 ^ 31))) := by
  refine ⟨by decide, by decide, ?_, ?_⟩ <;> decide

/-- Claim C8 (amended): for every i32 input except -2^31 (the one
input whose negation overflows i32), abs is non-negative, equals the
input or its negation, and equals the input whenever the input is
non-negative. -/
theorem abs_spec (x : Int) (h1 : -(2 ^ 31) < x) (h2 : x < 2 ^ 31) :
    0 ≤ abs x ∧ (abs x = x ∨ abs x = -x) ∧ (0 ≤ x → abs x = x) := by
  unfold abs wrap32
  split <;> refine ⟨?_, ?_, ?_⟩ <;> omega

/-- Claim C8 witness: the amended abs contract instantiated at
x = -5. -/
theorem abs_spec_witness :
    -(2 ^ 31 : Int) < -5 ∧ (-5 : Int) < 2 ^ 31 ∧
    (0 ≤ abs (-5) ∧ (abs (-5) = -5 ∨ abs (-5) = -(-5)) ∧
      (0 ≤ (-5 : Int) → abs (-5) = -5)) :=
  ⟨by decide, by decide, abs_spec (-5) (by decide) (by decide)⟩

/-- Fast linear-time evaluator for fib: fibPair n computes the pair
(fib n, fib (n+1)).  Used only to evaluate fib at inputs where the
naive recursion of the source is infeasible to reduce. -/
def fibPair : Nat → Nat × Nat
  | 0 => (0, 1)
  | n + 1 =>
    let p := fibPair n
    (p.2, (p.2 + p.1) % 2 ^ 32)

/-- fibPair agrees with fib. -/
theorem fibPair_eq (n : Nat) : fibPair n = (fib n, fib (n + 1)) := by
  induction n with
  | zero => rfl
  | succ n ih =>
    show (let p := fibPair n; ((p.2, (p.2 + p.1) % 2 ^ 32) : Nat × Nat))
        = (fib (n + 1), fib (n + 2))
    rw [ih]
    show (fib (n + 1), (fib (n + 1) + fib n) % 2 ^ 32)
        = (fib (n + 1), fib (n + 2))
    rfl

/-- Evaluation of fib at 46 through the linear evaluator. -/
theorem fib_46_eq : fib 46 = 1836311903 := by
  have h := fibPair_eq 46
  have h1 : (fibPair 46).1 = fib 46 := by rw [h]
  rw [← h1]
  decide

/-- Evaluation of fib at 47 through the linear evaluator. -/
theorem fib_47_eq : fib 47 = 2971215073 := by
  have h := fibPair_eq 47
  have h1 : (fibPair 47).1 = fib 47 := by rw [h]
  rw [← h1]
  decide

/-- Evaluation of fib at 48 through the linear evaluator: the u32
addition fib 47 + fib 46 = 4807526976 exceeds 2^32 and wraps to
512559680. -/
theorem fib_48_eq : fib 48 = 512559680 := by
  have h := fibPair_eq 48
  have h1 : (fibPair 48).1 = fib 48 := by rw [h]
  rw [← h1]
  decide

/-- Claim C9 (counterexample): the pure Fibonacci recurrence fails at
n = 48, where the u32 addition overflows: fib 48 = 512559680 while
fib 47 + fib 46 = 4807526976. -/
theorem fib_recurrence_cex : ¬ (fib 48 = fib 47 + fib 46) := by
  rw [fib_46_eq, fib_47_eq, fib_48_eq]
  decide

/-- Claim C9 (amended): fib 0 = 0, fib 1 = 1, fib 6 = 8, and for every
n ≥ 2 the recurrence holds with the u32 wrap-around made explicit:
fib n = (fib (n-1) + fib (n-2)) mod 2^32; the pure recurrence holds
while the sum stays below 2^32 and first fails at n = 48. -/
theorem fib_spec :
    fib 0 = 0 ∧ fib 1 = 1 ∧ fib 6 = 8 ∧
    ∀ n : Nat, 2 ≤ n → fib n = (fib (n - 1) + fib (n - 2)) % 2 ^ 32 := by
  refine ⟨rfl, rfl, by decide, ?_⟩
  intro n hn
  obtain ⟨m, rfl⟩ : ∃ m, n = m + 2 := ⟨n - 2, by omega⟩
  rfl

/-- Claim C9 witness: the wrap-aware recurrence instantiated at
n = 7. -/
theorem fib_spec_witness :
    (2 : Nat) ≤ 7 ∧ fib 7 = (fib (7 - 1) + fib (7 - 2)) % 2 ^ 32 :=
  ⟨by decide, fib_spec.2.2.2 7 (by decide)⟩

end VerificationExamples
